import Mathlib

set_option maxHeartbeats 1000000

/-!
Verification development for the `identity` package of go-lib-micro
(src/identity/token.go): a claims extractor that parses a three-segment
token, base64url-decodes the middle segment, JSON-parses it and extracts
typed identity fields.

Go strings are byte sequences; we model them as `List Nat` (each byte
below 256).  The JSON decoder and the base64 decoder are external
collaborators of the package (encoding/json, encoding/base64); they are
modelled here by executable Lean functions faithful to their documented
behaviour on the inputs the extractor exercises: URL-safe alphabet with
mandatory padding for base64, and for JSON the standard grammar with
whitespace, escapes and a top-level-value check.  The numeric value of a
JSON number is modelled by its integer part only; the extractor never
inspects numeric values, only the fact that a value is or is not a
string or a boolean.
-/

/-- Go strings are byte sequences. -/
abbrev Bytes := List Nat

/-- Every byte of a real Go string is below 256. -/
abbrev ValidBytes (l : Bytes) : Prop := ∀ b ∈ l, b < 256

/-- Model of Go `strings.Split` on a one-byte separator: splits around every
occurrence of the separator; the empty string yields one empty segment. -/
def splitOnByte (sep : Nat) : Bytes → List Bytes
  | [] => [[]]
  | b :: rest =>
    match splitOnByte sep rest with
    | [] => [[]]
    | s :: ss => if b = sep then [] :: s :: ss else (b :: s) :: ss

/-- Untyped JSON values, as decoded by encoding/json into dynamic values:
string, boolean, number, object, array or null. -/
inductive Json where
  | null : Json
  | bool (b : Bool) : Json
  | num (n : Int) : Json
  | str (s : Bytes) : Json
  | arr (elems : List Json) : Json
  | obj (members : List (Bytes × Json)) : Json

/-- JSON insignificant whitespace bytes: space, tab, newline, carriage return. -/
def isWsByte (b : Nat) : Bool := b == 32 || b == 9 || b == 10 || b == 13

/-- Drop leading JSON whitespace. -/
def skipWs (bs : Bytes) : Bytes := bs.dropWhile isWsByte

/-- ASCII decimal digit test. -/
def isDigit (b : Nat) : Bool := decide (48 ≤ b) && decide (b ≤ 57)

/-- Value of an ASCII hex digit. -/
def hexVal (b : Nat) : Option Nat :=
  if 48 ≤ b ∧ b ≤ 57 then some (b - 48)
  else if 97 ≤ b ∧ b ≤ 102 then some (b - 87)
  else if 65 ≤ b ∧ b ≤ 70 then some (b - 55)
  else none

/-- UTF-8 encoding of a Unicode code point. -/
def utf8Encode (n : Nat) : Bytes :=
  if n < 128 then [n]
  else if n < 2048 then [192 + n / 64, 128 + n % 64]
  else if n < 65536 then [224 + n / 4096, 128 + n / 64 % 64, 128 + n % 64]
  else [240 + n / 262144, 128 + n / 4096 % 64, 128 + n / 64 % 64, 128 + n % 64]

/-- An unpaired surrogate escape decodes to the replacement character. -/
def fixSurrogate (n : Nat) : Nat :=
  if 55296 ≤ n ∧ n ≤ 57343 then 65533 else n

/-- Byte produced by a single-character JSON escape sequence. -/
def escByteVal (e : Nat) : Option Nat :=
  if e = 34 then some 34
  else if e = 92 then some 92
  else if e = 47 then some 47
  else if e = 98 then some 8
  else if e = 102 then some 12
  else if e = 110 then some 10
  else if e = 114 then some 13
  else if e = 116 then some 9
  else none

/-- Parse the body of a JSON string after the opening quote byte; returns the
decoded content bytes and the input after the closing quote.  Raw control
bytes are rejected, escapes are decoded, a unicode escape is emitted as
UTF-8. -/
def parseStringBody : Bytes → Option (Bytes × Bytes)
  | [] => none
  | 34 :: rest => some ([], rest)
  | 92 :: [] => none
  | 92 :: e :: rest2 =>
    match escByteVal e with
    | some b => (parseStringBody rest2).map fun sr => (b :: sr.1, sr.2)
    | none =>
      if e = 117 then
        match rest2 with
        | h1 :: h2 :: h3 :: h4 :: rest3 =>
          match hexVal h1, hexVal h2, hexVal h3, hexVal h4 with
          | some a, some b2, some c2, some d =>
            (parseStringBody rest3).map fun sr =>
              (utf8Encode (fixSurrogate (a * 4096 + b2 * 256 + c2 * 16 + d)) ++ sr.1, sr.2)
          | _, _, _, _ => none
        | _ => none
      else none
  | c :: rest =>
    if c < 32 then none
    else (parseStringBody rest).map fun sr => (c :: sr.1, sr.2)

/-- Numeric value of a digit string. -/
def natOfDigits (ds : Bytes) : Nat := ds.foldl (fun a b => a * 10 + (b - 48)) 0

/-- Parse a nonempty run of decimal digits. -/
def parseDigits (bs : Bytes) : Option (Nat × Bytes) :=
  let ds := bs.takeWhile isDigit
  if ds = [] then none else some (natOfDigits ds, bs.dropWhile isDigit)

/-- Parse an optional fraction part, returning the remaining input. -/
def parseFrac (bs : Bytes) : Option Bytes :=
  match bs with
  | 46 :: r =>
    match parseDigits r with
    | some (_, r2) => some r2
    | none => none
  | _ => some bs

/-- Parse an optional exponent part, returning the remaining input. -/
def parseExp (bs : Bytes) : Option Bytes :=
  match bs with
  | 101 :: r =>
    match parseDigits (match r with | 43 :: rr => rr | 45 :: rr => rr | _ => r) with
    | some (_, r2) => some r2
    | none => none
  | 69 :: r =>
    match parseDigits (match r with | 43 :: rr => rr | 45 :: rr => rr | _ => r) with
    | some (_, r2) => some r2
    | none => none
  | _ => some bs

/-- Parse a JSON number; its value is modelled by the integer part, which the
identity extractor never inspects. -/
def parseNumber (bs : Bytes) : Option (Json × Bytes) :=
  match bs with
  | 45 :: r =>
    match parseDigits r with
    | some (n, r2) =>
      match parseFrac r2 with
      | some r3 =>
        match parseExp r3 with
        | some r4 => some (.num (-(n : Int)), r4)
        | none => none
      | none => none
    | none => none
  | _ =>
    match parseDigits bs with
    | some (n, r2) =>
      match parseFrac r2 with
      | some r3 =>
        match parseExp r3 with
        | some r4 => some (.num (n : Int), r4)
        | none => none
      | none => none
    | none => none

mutual

/-- Parse one JSON value.  The fuel decreases on every mutual recursive call;
the top-level entry point supplies enough fuel for any input it accepts. -/
def parseValue : Nat → Bytes → Option (Json × Bytes)
  | 0, _ => none
  | fuel + 1, bs =>
    match skipWs bs with
    | [] => none
    | c :: rest =>
      if c = 110 then
        match rest with
        | 117 :: 108 :: 108 :: r => some (.null, r)
        | _ => none
      else if c = 116 then
        match rest with
        | 114 :: 117 :: 101 :: r => some (.bool true, r)
        | _ => none
      else if c = 102 then
        match rest with
        | 97 :: 108 :: 115 :: 101 :: r => some (.bool false, r)
        | _ => none
      else if c = 34 then
        match parseStringBody rest with
        | some (s, r) => some (.str s, r)
        | none => none
      else if c = 123 then parseMembersFirst fuel rest
      else if c = 91 then parseElementsFirst fuel rest
      else if c = 45 || isDigit c then parseNumber (c :: rest)
      else none

/-- Parse the members of a JSON object after the opening brace. -/
def parseMembersFirst : Nat → Bytes → Option (Json × Bytes)
  | 0, _ => none
  | fuel + 1, bs =>
    match skipWs bs with
    | [] => none
    | c :: rest =>
      if c = 125 then some (.obj [], rest)
      else if c = 34 then
        match parseStringBody rest with
        | some (k, rest2) =>
          match skipWs rest2 with
          | 58 :: rest3 =>
            match parseValue fuel rest3 with
            | some (v, rest4) => parseMembersMore fuel [(k, v)] rest4
            | none => none
          | _ => none
        | none => none
      else none

/-- Parse the continuation of a JSON object after a complete member. -/
def parseMembersMore : Nat → List (Bytes × Json) → Bytes → Option (Json × Bytes)
  | 0, _, _ => none
  | fuel + 1, acc, bs =>
    match skipWs bs with
    | 125 :: rest => some (.obj acc, rest)
    | 44 :: rest =>
      match skipWs rest with
      | 34 :: rest1 =>
        match parseStringBody rest1 with
        | some (k, rest2) =>
          match skipWs rest2 with
          | 58 :: rest3 =>
            match parseValue fuel rest3 with
            | some (v, rest4) => parseMembersMore fuel (acc ++ [(k, v)]) rest4
            | none => none
          | _ => none
        | none => none
      | _ => none
    | _ => none

/-- Parse the elements of a JSON array after the opening bracket. -/
def parseElementsFirst : Nat → Bytes → Option (Json × Bytes)
  | 0, _ => none
  | fuel + 1, bs =>
    match skipWs bs with
    | 93 :: rest => some (.arr [], rest)
    | _ =>
      match parseValue fuel bs with
      | some (v, rest) => parseElementsMore fuel [v] rest
      | none => none

/-- Parse the continuation of a JSON array after a complete element. -/
def parseElementsMore : Nat → List Json → Bytes → Option (Json × Bytes)
  | 0, _, _ => none
  | fuel + 1, acc, bs =>
    match skipWs bs with
    | 93 :: rest => some (.arr acc, rest)
    | 44 :: rest =>
      match parseValue fuel rest with
      | some (v, rest2) => parseElementsMore fuel (acc ++ [v]) rest2
      | none => none
    | _ => none

end

/-- Parse a whole JSON document: one value surrounded only by whitespace. -/
def jsonParse (bs : Bytes) : Option Json :=
  match parseValue (bs.length + 1) bs with
  | some (v, rest) => if skipWs rest = [] then some v else none
  | none => none

/-- ASCII byte of a hex digit value, lowercase letters. -/
def hexDigitByte (n : Nat) : Nat := if n < 10 then 48 + n else 87 + n

/-- JSON string escaping as a serialiser performs it: quote and backslash get
a backslash escape, control bytes get a unicode escape, everything else is
emitted raw. -/
def escStr : Bytes → Bytes
  | [] => []
  | b :: rest =>
    if b = 34 then 92 :: 34 :: escStr rest
    else if b = 92 then 92 :: 92 :: escStr rest
    else if b < 32 then
      92 :: 117 :: 48 :: 48 :: hexDigitByte (b / 16) :: hexDigitByte (b % 16) :: escStr rest
    else b :: escStr rest

/-- A serialised JSON string: quoted and escaped. -/
def serStr (s : Bytes) : Bytes := 34 :: (escStr s ++ [34])

/-- Decimal digits of a natural number. -/
def serNat (n : Nat) : Bytes := (Nat.toDigits 10 n).map Char.toNat

/-- Decimal serialisation of an integer. -/
def serInt (n : Int) : Bytes :=
  if n < 0 then 45 :: serNat (-n).toNat else serNat n.toNat

mutual

/-- Serialise a JSON value without insignificant whitespace, as Go
json.Marshal does. -/
def serJson : Json → Bytes
  | .null => [110, 117, 108, 108]
  | .bool true => [116, 114, 117, 101]
  | .bool false => [102, 97, 108, 115, 101]
  | .num n => serInt n
  | .str s => serStr s
  | .arr es => 91 :: serElemsFirst es
  | .obj kvs => 123 :: serMembersFirst kvs

/-- Serialise array elements and the closing bracket. -/
def serElemsFirst : List Json → Bytes
  | [] => [93]
  | v :: rest => serJson v ++ serElemsMore rest

/-- Serialise remaining array elements, comma-prefixed, and the bracket. -/
def serElemsMore : List Json → Bytes
  | [] => [93]
  | v :: rest => 44 :: (serJson v ++ serElemsMore rest)

/-- Serialise object members and the closing brace. -/
def serMembersFirst : List (Bytes × Json) → Bytes
  | [] => [125]
  | (k, v) :: rest => serStr k ++ (58 :: (serJson v ++ serMembersMore rest))

/-- Serialise remaining object members, comma-prefixed, and the brace. -/
def serMembersMore : List (Bytes × Json) → Bytes
  | [] => [125]
  | (k, v) :: rest => 44 :: (serStr k ++ (58 :: (serJson v ++ serMembersMore rest)))

end

/-- Six-bit value of a byte in the URL-safe base64 alphabet. -/
def b64Val (b : Nat) : Option Nat :=
  if 65 ≤ b ∧ b ≤ 90 then some (b - 65)
  else if 97 ≤ b ∧ b ≤ 122 then some (b - 71)
  else if 48 ≤ b ∧ b ≤ 57 then some (b + 4)
  else if b = 45 then some 62
  else if b = 95 then some 63
  else none

/-- Byte of a six-bit value in the URL-safe base64 alphabet. -/
def sextetByte (s : Nat) : Nat :=
  if s < 26 then 65 + s
  else if s < 52 then 71 + s
  else if s < 62 then s - 4
  else if s = 62 then 45
  else 95

/-- URL-safe base64 encoding with padding, as base64.URLEncoding.EncodeToString. -/
def encodeB64 : Bytes → Bytes
  | b0 :: b1 :: b2 :: rest =>
    sextetByte (b0 / 4) :: sextetByte (b0 % 4 * 16 + b1 / 16) ::
      sextetByte (b1 % 16 * 4 + b2 / 64) :: sextetByte (b2 % 64) :: encodeB64 rest
  | [b0, b1] => [sextetByte (b0 / 4), sextetByte (b0 % 4 * 16 + b1 / 16),
      sextetByte (b1 % 16 * 4), 61]
  | [b0] => [sextetByte (b0 / 4), sextetByte (b0 % 4 * 16), 61, 61]
  | [] => []

/-- URL-safe base64 decoding with mandatory padding, as
base64.URLEncoding.DecodeString: input in groups of four, padding only in the
final group, unused trailing bits ignored. -/
def decodeB64 : Bytes → Option Bytes
  | x0 :: x1 :: x2 :: x3 :: rest =>
    match b64Val x0, b64Val x1 with
    | some s0, some s1 =>
      if x2 = 61 then
        if x3 = 61 ∧ rest = [] then some [s0 * 4 + s1 / 16] else none
      else
        match b64Val x2 with
        | some s2 =>
          if x3 = 61 then
            if rest = [] then some [s0 * 4 + s1 / 16, s1 % 16 * 16 + s2 / 4] else none
          else
            match b64Val x3 with
            | some s3 =>
              match decodeB64 rest with
              | some bs =>
                some ((s0 * 4 + s1 / 16) :: (s1 % 16 * 16 + s2 / 4) :: (s2 % 4 * 64 + s3) :: bs)
              | none => none
            | none => none
        | none => none
    | _, _ => none
  | [] => some []
  | _ => none

/-- Drop trailing padding bytes from a base64 string; this is the shape of
an unpadded token payload. -/
def rstripEq (l : Bytes) : Bytes := (l.reverse.dropWhile (fun b => b == 61)).reverse

/-- Error outcomes of the extractor, one constructor per error site of
src/identity/token.go and the spec's error taxonomy. -/
inductive ExtractError where
  | formatError
  | decodeError
  | parseError
  | missingSubject
  | typeMismatch (claim : Bytes)
  | missingClaim (claim : Bytes)
  | malformedHeader
  | unsupportedScheme (scheme : Bytes)
deriving DecidableEq

/-- The Identity record of src/identity/token.go lines 34-40. -/
structure Identity where
  Subject : Bytes
  Tenant : Bytes
  IsUser : Bool
  IsDevice : Bool
  Plan : Bytes
deriving DecidableEq

/-- The zero value of Identity, returned by Go alongside every error. -/
def Identity.zero : Identity := ⟨[], [], false, false, []⟩

/-- The byte string sub. -/
def subjectClaim : Bytes := [115, 117, 98]

/-- The byte string mender.tenant. -/
def tenantClaim : Bytes := [109, 101, 110, 100, 101, 114, 46, 116, 101, 110, 97, 110, 116]

/-- The byte string mender.device. -/
def deviceClaim : Bytes := [109, 101, 110, 100, 101, 114, 46, 100, 101, 118, 105, 99, 101]

/-- The byte string mender.user. -/
def userClaim : Bytes := [109, 101, 110, 100, 101, 114, 46, 117, 115, 101, 114]

/-- The byte string mender.plan. -/
def planClaim : Bytes := [109, 101, 110, 100, 101, 114, 46, 112, 108, 97, 110]

/-- The decoded claim set: a mapping from claim name to untyped JSON value,
as json.Unmarshal produces into a Go map. -/
abbrev rawClaims := List (Bytes × Json)

/-- Lookup in the claim set.  Go map semantics: on duplicate JSON keys the
later binding wins, so the last matching entry is returned. -/
def claimsLookup (m : rawClaims) (k : Bytes) : Option Json :=
  match m with
  | [] => none
  | (k0, v) :: rest =>
    match claimsLookup rest k with
    | some v' => some v'
    | none => if k0 = k then some v else none

/-- Result of json.Unmarshal of a document into a Go map: a top-level object
gives its members, the literal null leaves the map nil without error, and
any other document is an error. -/
def jsonToClaims (bs : Bytes) : Option rawClaims :=
  match jsonParse bs with
  | some (.obj kvs) => some kvs
  | some .null => some []
  | _ => none

/-- Padding correction of src/identity/token.go lines 51-54: append padding
bytes until the length is a multiple of four. -/
def padB64 (s : Bytes) : Bytes :=
  if s.length % 4 = 0 then s else s ++ List.replicate (4 - s.length % 4) 61

/-- decodeClaims of src/identity/token.go lines 44-69: split on the dot byte,
require exactly three segments, pad and base64-decode the middle segment,
JSON-decode it into a claim set. -/
def decodeClaims (token : Bytes) : Except ExtractError rawClaims :=
  match splitOnByte 46 token with
  | [_, b64claims, _] =>
    match decodeB64 (padB64 b64claims) with
    | none => .error .decodeError
    | some raw =>
      match jsonToClaims raw with
      | none => .error .parseError
      | some claims => .ok claims
  | _ => .error .formatError

/-- getStringClaim of src/identity/token.go lines 127-138: an absent claim is
the empty string without error; a present non-string claim is an error. -/
def getStringClaim (claims : rawClaims) (claim : Bytes) : Except ExtractError Bytes :=
  match claimsLookup claims claim with
  | none => .ok []
  | some (.str s) => .ok s
  | some _ => .error (.typeMismatch claim)

/-- getBoolClaim of src/identity/token.go lines 141-153: an absent claim is
an error; a present non-boolean claim is an error. -/
def getBoolClaim (claims : rawClaims) (name : Bytes) : Except ExtractError Bool :=
  match claimsLookup claims name with
  | none => .error (.missingClaim name)
  | some (.bool b) => .ok b
  | some _ => .error (.typeMismatch name)

/-- ExtractIdentity of src/identity/token.go lines 74-108.  Go returns the
pair of an Identity and an error; every error site returns the zero
Identity.  Boolean claim errors are swallowed, leaving the default false. -/
def ExtractIdentity (token : Bytes) : Identity × Option ExtractError :=
  match decodeClaims token with
  | .error e => (Identity.zero, some e)
  | .ok claims =>
    match getStringClaim claims subjectClaim with
    | .error e => (Identity.zero, some e)
    | .ok sub =>
      if sub = [] then (Identity.zero, some .missingSubject)
      else
        match getStringClaim claims tenantClaim with
        | .error e => (Identity.zero, some e)
        | .ok tenant =>
          match getStringClaim claims planClaim with
          | .error e => (Identity.zero, some e)
          | .ok plan =>
            let id0 : Identity :=
              { Subject := sub, Tenant := tenant, IsUser := false, IsDevice := false,
                Plan := plan }
            let id1 :=
              match getBoolClaim claims userClaim with
              | .ok isUser => { id0 with IsUser := isUser }
              | .error _ => id0
            let id2 :=
              match getBoolClaim claims deviceClaim with
              | .ok isDevice => { id1 with IsDevice := isDevice }
              | .error _ => id1
            (id2, none)

/-- The byte string Authorization. -/
def authorizationKey : Bytes := [65, 117, 116, 104, 111, 114, 105, 122, 97, 116, 105, 111, 110]

/-- The byte string Bearer. -/
def bearerScheme : Bytes := [66, 101, 97, 114, 101, 114]

/-- Lowercase an ASCII byte. -/
def lowerByte (b : Nat) : Nat := if 65 ≤ b ∧ b ≤ 90 then b + 32 else b

/-- Case-insensitive ASCII equality of byte strings, modelling net/http
header-name canonicalisation. -/
def bytesEqCI (a b : Bytes) : Bool := a.map lowerByte == b.map lowerByte

/-- A header collection: name-value pairs. -/
abbrev Headers := List (Bytes × Bytes)

/-- Model of http.Header.Get: first value under a case-insensitive name
match, the empty string when absent. -/
def headerGet : Headers → Bytes → Bytes
  | [], _ => []
  | (k, v) :: rest, key => if bytesEqCI k key then v else headerGet rest key

/-- ExtractIdentityFromHeaders of src/identity/token.go lines 112-124: split
the Authorization value on the space byte, require exactly two parts, require
the literal Bearer scheme, and delegate to ExtractIdentity. -/
def ExtractIdentityFromHeaders (headers : Headers) : Identity × Option ExtractError :=
  match splitOnByte 32 (headerGet headers authorizationKey) with
  | [scheme, token] =>
    if scheme = bearerScheme then ExtractIdentity token
    else (Identity.zero, some (.unsupportedScheme scheme))
  | _ => (Identity.zero, some .malformedHeader)

/-- The payload object of the round-trip property: the five recognised
claims in spec order. -/
def payloadMembers (S T P : Bytes) (D U : Bool) : List (Bytes × Json) :=
  [(subjectClaim, .str S), (tenantClaim, .str T), (planClaim, .str P),
   (deviceClaim, .bool D), (userClaim, .bool U)]

/-- Wrap a payload segment between the literal segments x and y. -/
def wrapToken (p : Bytes) : Bytes := 120 :: 46 :: (p ++ [46, 121])

/-- The boolean an optional boolean claim contributes to the identity:
its value when present as a boolean, false when absent or mistyped. -/
def boolClaimDefault (m : rawClaims) (k : Bytes) : Bool :=
  match claimsLookup m k with
  | some (.bool b) => b
  | _ => false

/-- Scalar JSON values: strings and booleans, the value shapes of the
round-trip payload. -/
def scalarVal : Json → Prop
  | .str _ => True
  | .bool _ => True
  | _ => False

/-- A structurally valid token whose first, unvalidated segment contains a
space byte: a b followed by the base64 payload of a subject-only object and
the closing segment c. -/
def c8Token : Bytes :=
  [97, 32, 98, 46] ++ encodeB64 [123, 34, 115, 117, 98, 34, 58, 34, 120, 34, 125] ++ [46, 99]

/-- The three-segment token whose payload is the base64 encoding of the JSON
document null. -/
def nullToken : Bytes := wrapToken (encodeB64 [110, 117, 108, 108])

section SplitLemmas

theorem splitOnByte_ne_nil (sep : Nat) (l : Bytes) : splitOnByte sep l ≠ [] := by
  cases l with
  | nil => simp [splitOnByte]
  | cons b rest =>
    simp only [splitOnByte]
    rcases splitOnByte sep rest with _ | ⟨s, ss⟩
    · simp
    · by_cases hb : b = sep <;> simp [hb]

theorem splitOnByte_no_sep (sep : Nat) (l : Bytes) (h : ∀ x ∈ l, x ≠ sep) :
    splitOnByte sep l = [l] := by
  induction l with
  | nil => simp [splitOnByte]
  | cons b rest ih =>
    have hb : b ≠ sep := h b (by simp)
    have := ih (fun x hx => h x (by simp [hx]))
    simp only [splitOnByte, this]
    simp [hb]

theorem splitOnByte_append (sep : Nat) (l r : Bytes) (h : ∀ x ∈ l, x ≠ sep) :
    splitOnByte sep (l ++ sep :: r) = l :: splitOnByte sep r := by
  induction l with
  | nil =>
    simp only [List.nil_append, splitOnByte]
    rcases h' : splitOnByte sep r with _ | ⟨s, ss⟩
    · exact absurd h' (splitOnByte_ne_nil sep r)
    · simp
  | cons b rest ih =>
    have hb : b ≠ sep := h b (by simp)
    have hrec := ih (fun x hx => h x (by simp [hx]))
    simp only [List.cons_append, splitOnByte, List.append_eq]
    rw [hrec]
    simp [hb]

theorem splitOnByte_length (sep : Nat) (l : Bytes) :
    (splitOnByte sep l).length = l.count sep + 1 := by
  induction l with
  | nil => simp [splitOnByte]
  | cons b rest ih =>
    simp only [splitOnByte]
    rcases h : splitOnByte sep rest with _ | ⟨s, ss⟩
    · exact absurd h (splitOnByte_ne_nil sep rest)
    · rw [h] at ih
      by_cases hb : b = sep
      · subst hb
        simp_all [List.count_cons]
      · simp_all [List.count_cons, Ne.symm hb]

end SplitLemmas

section WsLemmas

theorem skipWs_cons (c : Nat) (l : Bytes) (h : isWsByte c = false) :
    skipWs (c :: l) = c :: l := by
  simp [skipWs, List.dropWhile_cons, h]

theorem skipWs_nil : skipWs [] = [] := rfl

end WsLemmas

section StringRoundTrip

theorem hexVal_hexDigitByte (n : Nat) (h : n < 16) :
    hexVal (hexDigitByte n) = some n := by
  interval_cases n <;> decide

theorem parseStringBody_escStr (s : Bytes) (rest : Bytes) :
    parseStringBody (escStr s ++ (34 :: rest)) = some (s, rest) := by
  induction s with
  | nil => simp [escStr, parseStringBody]
  | cons b s' ih =>
    by_cases hb34 : b = 34
    · subst hb34
      simp [escStr, parseStringBody, escByteVal, ih]
    · by_cases hb92 : b = 92
      · subst hb92
        simp [escStr, parseStringBody, escByteVal, ih]
      · by_cases hbc : b < 32
        · have e1 := hexVal_hexDigitByte (b / 16) (by omega)
          have e2 := hexVal_hexDigitByte (b % 16) (by omega)
          have h48 : hexVal 48 = some 0 := by decide
          have hkey : utf8Encode (fixSurrogate (b / 16 * 16 + b % 16)) = [b] := by
            have h1 : b / 16 * 16 + b % 16 = b := by omega
            rw [h1]
            have h2 : fixSurrogate b = b := by
              unfold fixSurrogate
              rw [if_neg (by omega)]
            rw [h2]
            unfold utf8Encode
            rw [if_pos (by omega)]
          simp [escStr, hb34, hb92, hbc, parseStringBody, escByteVal, h48, e1, e2, ih, hkey]
        · simp [escStr, hb34, hb92, hbc, parseStringBody, ih]

end StringRoundTrip

section Base64Lemmas

theorem b64Val_sextetByte : ∀ s < 64, b64Val (sextetByte s) = some s := by decide

theorem sextetByte_ne_61 : ∀ s < 64, sextetByte s ≠ 61 := by decide

theorem sextetByte_ne_46 : ∀ s < 64, sextetByte s ≠ 46 := by decide

theorem sextetByte_ne_32 : ∀ s < 64, sextetByte s ≠ 32 := by decide

theorem decodeB64_encodeB64 (bs : Bytes) : ValidBytes bs → decodeB64 (encodeB64 bs) = some bs := by
  induction bs using encodeB64.induct with
  | case1 b0 b1 b2 rest ih =>
    intro h
    have hb0 : b0 < 256 := h _ (by simp)
    have hb1 : b1 < 256 := h _ (by simp)
    have hb2 : b2 < 256 := h _ (by simp)
    have ih' := ih (fun x hx => h x (by simp [hx]))
    have v0 := b64Val_sextetByte (b0 / 4) (by omega)
    have v1 := b64Val_sextetByte (b0 % 4 * 16 + b1 / 16) (by omega)
    have v2 := b64Val_sextetByte (b1 % 16 * 4 + b2 / 64) (by omega)
    have v3 := b64Val_sextetByte (b2 % 64) (by omega)
    have n2 := sextetByte_ne_61 (b1 % 16 * 4 + b2 / 64) (by omega)
    have n3 := sextetByte_ne_61 (b2 % 64) (by omega)
    simp only [encodeB64, decodeB64, v0, v1, v2, v3, ih']
    rw [if_neg n2, if_neg n3]
    simp only [Option.map_some, Option.some.injEq, List.cons.injEq]
    exact ⟨by omega, by omega, by omega, trivial⟩
  | case2 b0 b1 =>
    intro h
    have hb0 : b0 < 256 := h _ (by simp)
    have hb1 : b1 < 256 := h _ (by simp)
    have v0 := b64Val_sextetByte (b0 / 4) (by omega)
    have v1 := b64Val_sextetByte (b0 % 4 * 16 + b1 / 16) (by omega)
    have v2 := b64Val_sextetByte (b1 % 16 * 4) (by omega)
    have n2 := sextetByte_ne_61 (b1 % 16 * 4) (by omega)
    simp only [encodeB64, decodeB64, v0, v1, v2]
    rw [if_neg n2]
    simp only [if_true, and_self, Option.some.injEq, List.cons.injEq]
    exact ⟨by omega, by omega, trivial⟩
  | case3 b0 =>
    intro h
    have hb0 : b0 < 256 := h _ (by simp)
    have v0 := b64Val_sextetByte (b0 / 4) (by omega)
    have v1 := b64Val_sextetByte (b0 % 4 * 16) (by omega)
    simp only [encodeB64, decodeB64, v0, v1]
    simp only [if_true, and_self, Option.some.injEq, List.cons.injEq]
    exact ⟨by omega, trivial⟩
  | case4 =>
    intro _
    simp [encodeB64, decodeB64]

theorem encodeB64_not_sep (bs : Bytes) :
    ValidBytes bs → ∀ x ∈ encodeB64 bs, x ≠ 46 ∧ x ≠ 32 := by
  induction bs using encodeB64.induct with
  | case1 b0 b1 b2 rest ih =>
    intro h x hx
    have hb0 : b0 < 256 := h _ (by simp)
    have hb1 : b1 < 256 := h _ (by simp)
    have hb2 : b2 < 256 := h _ (by simp)
    have ih' := ih (fun y hy => h y (by simp [hy]))
    simp only [encodeB64, List.mem_cons] at hx
    rcases hx with rfl | rfl | rfl | rfl | hx
    · exact ⟨sextetByte_ne_46 _ (by omega), sextetByte_ne_32 _ (by omega)⟩
    · exact ⟨sextetByte_ne_46 _ (by omega), sextetByte_ne_32 _ (by omega)⟩
    · exact ⟨sextetByte_ne_46 _ (by omega), sextetByte_ne_32 _ (by omega)⟩
    · exact ⟨sextetByte_ne_46 _ (by omega), sextetByte_ne_32 _ (by omega)⟩
    · exact ih' _ hx
  | case2 b0 b1 =>
    intro h x hx
    have hb0 : b0 < 256 := h _ (by simp)
    have hb1 : b1 < 256 := h _ (by simp)
    simp only [encodeB64, List.mem_cons] at hx
    rcases hx with rfl | rfl | rfl | rfl | hx
    · exact ⟨sextetByte_ne_46 _ (by omega), sextetByte_ne_32 _ (by omega)⟩
    · exact ⟨sextetByte_ne_46 _ (by omega), sextetByte_ne_32 _ (by omega)⟩
    · exact ⟨sextetByte_ne_46 _ (by omega), sextetByte_ne_32 _ (by omega)⟩
    · exact ⟨by omega, by omega⟩
    · simp at hx
  | case3 b0 =>
    intro h x hx
    have hb0 : b0 < 256 := h _ (by simp)
    simp only [encodeB64, List.mem_cons] at hx
    rcases hx with rfl | rfl | rfl | rfl | hx
    · exact ⟨sextetByte_ne_46 _ (by omega), sextetByte_ne_32 _ (by omega)⟩
    · exact ⟨sextetByte_ne_46 _ (by omega), sextetByte_ne_32 _ (by omega)⟩
    · exact ⟨by omega, by omega⟩
    · exact ⟨by omega, by omega⟩
    · simp at hx
  | case4 =>
    intro _ x hx
    simp [encodeB64] at hx

theorem encodeB64_pad_struct (bs : Bytes) :
    ValidBytes bs → ∃ core k, encodeB64 bs = core ++ List.replicate k 61 ∧
      (∀ x ∈ core, x ≠ 61) ∧ k ≤ 2 ∧ (core.length + k) % 4 = 0 := by
  induction bs using encodeB64.induct with
  | case1 b0 b1 b2 rest ih =>
    intro h
    have hb0 : b0 < 256 := h _ (by simp)
    have hb1 : b1 < 256 := h _ (by simp)
    have hb2 : b2 < 256 := h _ (by simp)
    obtain ⟨core, k, heq, hne, hk, hmod⟩ := ih (fun y hy => h y (by simp [hy]))
    refine ⟨sextetByte (b0 / 4) :: sextetByte (b0 % 4 * 16 + b1 / 16) ::
      sextetByte (b1 % 16 * 4 + b2 / 64) :: sextetByte (b2 % 64) :: core, k, ?_, ?_, hk, ?_⟩
    · simp [encodeB64, heq]
    · intro x hx
      simp only [List.mem_cons] at hx
      rcases hx with rfl | rfl | rfl | rfl | hx
      · exact sextetByte_ne_61 _ (by omega)
      · exact sextetByte_ne_61 _ (by omega)
      · exact sextetByte_ne_61 _ (by omega)
      · exact sextetByte_ne_61 _ (by omega)
      · exact hne _ hx
    · simp only [List.length_cons]
      omega
  | case2 b0 b1 =>
    intro h
    have hb0 : b0 < 256 := h _ (by simp)
    have hb1 : b1 < 256 := h _ (by simp)
    refine ⟨[sextetByte (b0 / 4), sextetByte (b0 % 4 * 16 + b1 / 16),
      sextetByte (b1 % 16 * 4)], 1, by simp [encodeB64], ?_, by omega, by simp⟩
    intro x hx
    simp only [List.mem_cons] at hx
    rcases hx with rfl | rfl | rfl | hx
    · exact sextetByte_ne_61 _ (by omega)
    · exact sextetByte_ne_61 _ (by omega)
    · exact sextetByte_ne_61 _ (by omega)
    · simp at hx
  | case3 b0 =>
    intro h
    have hb0 : b0 < 256 := h _ (by simp)
    refine ⟨[sextetByte (b0 / 4), sextetByte (b0 % 4 * 16)], 2,
      by simp [encodeB64, List.replicate], ?_, by omega, by simp⟩
    intro x hx
    simp only [List.mem_cons] at hx
    rcases hx with rfl | rfl | hx
    · exact sextetByte_ne_61 _ (by omega)
    · exact sextetByte_ne_61 _ (by omega)
    · simp at hx
  | case4 =>
    intro _
    exact ⟨[], 0, by simp [encodeB64], by simp, by omega, by simp⟩

theorem rstripEq_append_replicate (core : Bytes) (k : Nat) (h : ∀ x ∈ core, x ≠ 61) :
    rstripEq (core ++ List.replicate k 61) = core := by
  unfold rstripEq
  rw [List.reverse_append, List.reverse_replicate]
  have h1 : List.dropWhile (fun b => b == 61) (List.replicate k 61 ++ core.reverse) =
      List.dropWhile (fun b => b == 61) core.reverse := by
    induction k with
    | zero => simp
    | succ n ihn => simp [List.replicate_succ, List.dropWhile_cons, ihn]
  rw [h1]
  rcases hc : core.reverse with _ | ⟨c, cs⟩
  · simpa using congrArg List.reverse hc.symm
  · have hcmem : c ∈ core := by
      have : c ∈ core.reverse := by simp [hc]
      simpa using this
    have hcne : (c == 61) = false := by
      simp [h c hcmem]
    rw [List.dropWhile_cons, hcne]
    simp [← hc]

theorem padB64_length_mod (s : Bytes) (h : s.length % 4 = 0) : padB64 s = s := by
  unfold padB64
  rw [if_pos h]

theorem padB64_rstrip_encode (bs : Bytes) (h : ValidBytes bs) :
    padB64 (rstripEq (encodeB64 bs)) = encodeB64 bs := by
  obtain ⟨core, k, heq, hne, hk, hmod⟩ := encodeB64_pad_struct bs h
  rw [heq, rstripEq_append_replicate core k hne]
  unfold padB64
  rcases Nat.eq_zero_or_pos k with hk0 | hkpos
  · subst hk0
    rw [if_pos (by omega)]
    simp
  · rw [if_neg (by omega)]
    have : 4 - core.length % 4 = k := by omega
    rw [this]

theorem encodeB64_length_mod (bs : Bytes) : (encodeB64 bs).length % 4 = 0 := by
  induction bs using encodeB64.induct with
  | case1 b0 b1 b2 rest ih =>
    simp only [encodeB64, List.length_cons]
    omega
  | case2 b0 b1 => simp [encodeB64]
  | case3 b0 => simp [encodeB64]
  | case4 => simp [encodeB64]

end Base64Lemmas

section JsonRoundTrip

theorem parseValue_scalar (v : Json) (hv : scalarVal v) (f : Nat) (rest : Bytes) :
    parseValue (f + 1) (serJson v ++ rest) = some (v, rest) := by
  cases v with
  | str s =>
    simp [serJson, serStr, List.append_assoc, List.cons_append, parseValue, skipWs_cons,
      isWsByte, parseStringBody_escStr]
  | bool b =>
    cases b <;>
      simp [serJson, parseValue, skipWs_cons, isWsByte]
  | null => exact hv.elim
  | num n => exact hv.elim
  | arr es => exact hv.elim
  | obj kvs => exact hv.elim

theorem parseMembersMore_ser (kvs : List (Bytes × Json)) (hkv : ∀ kv ∈ kvs, scalarVal kv.2) :
    ∀ (f : Nat) (acc : List (Bytes × Json)) (rest : Bytes),
      parseMembersMore (f + kvs.length + 1) acc (serMembersMore kvs ++ rest) =
        some (.obj (acc ++ kvs), rest) := by
  induction kvs with
  | nil =>
    intro f acc rest
    simp [serMembersMore, parseMembersMore, skipWs_cons, isWsByte]
  | cons kv t ih =>
    obtain ⟨k, v⟩ := kv
    intro f acc rest
    have hv : scalarVal v := hkv (k, v) (by simp)
    have hsv := parseValue_scalar v hv (f + t.length)
    have iht := ih (fun kv hkv' => hkv kv (by simp [hkv'])) f (acc ++ [(k, v)]) rest
    simp only [List.length_cons]
    have harith : f + (t.length + 1) + 1 = f + t.length + 1 + 1 := by omega
    rw [harith]
    simp only [serMembersMore, serStr, List.append_assoc, List.cons_append, List.nil_append]
    rw [parseMembersMore]
    simp [skipWs_cons, isWsByte, parseStringBody_escStr, hsv, iht]

theorem parseMembersFirst_ser (kvs : List (Bytes × Json)) (hkv : ∀ kv ∈ kvs, scalarVal kv.2)
    (f : Nat) (rest : Bytes) :
    parseMembersFirst (f + kvs.length + 1) (serMembersFirst kvs ++ rest) =
      some (.obj kvs, rest) := by
  cases kvs with
  | nil =>
    simp [serMembersFirst, parseMembersFirst, skipWs_cons, isWsByte]
  | cons kv t =>
    obtain ⟨k, v⟩ := kv
    have hv : scalarVal v := hkv (k, v) (by simp)
    have hsv := parseValue_scalar v hv (f + t.length)
    have hmm := parseMembersMore_ser t (fun kv hkv' => hkv kv (by simp [hkv'])) f [(k, v)] rest
    simp only [List.length_cons]
    have harith : f + (t.length + 1) + 1 = f + t.length + 1 + 1 := by omega
    rw [harith]
    simp only [serMembersFirst, serStr, List.append_assoc, List.cons_append, List.nil_append]
    rw [parseMembersFirst]
    simp [skipWs_cons, isWsByte, parseStringBody_escStr, hsv, hmm]

theorem parseValue_serObj (kvs : List (Bytes × Json)) (hkv : ∀ kv ∈ kvs, scalarVal kv.2)
    (f : Nat) (rest : Bytes) :
    parseValue (f + kvs.length + 2) (serJson (.obj kvs) ++ rest) = some (.obj kvs, rest) := by
  have hmf := parseMembersFirst_ser kvs hkv f rest
  have harith : f + kvs.length + 2 = (f + kvs.length + 1) + 1 := by omega
  rw [harith]
  simp only [serJson, List.cons_append]
  rw [parseValue]
  simp [skipWs_cons, isWsByte, hmf]

theorem serMembersMore_length (kvs : List (Bytes × Json)) :
    kvs.length + 1 ≤ (serMembersMore kvs).length := by
  induction kvs with
  | nil => simp [serMembersMore]
  | cons kv t ih =>
    obtain ⟨k, v⟩ := kv
    simp only [serMembersMore, serStr, List.length_cons, List.length_append]
    omega

theorem serMembersFirst_length (kvs : List (Bytes × Json)) :
    kvs.length + 1 ≤ (serMembersFirst kvs).length := by
  cases kvs with
  | nil => simp [serMembersFirst]
  | cons kv t =>
    obtain ⟨k, v⟩ := kv
    have := serMembersMore_length t
    simp only [serMembersFirst, serStr, List.length_cons, List.length_append]
    omega

theorem jsonParse_serObj (kvs : List (Bytes × Json)) (hkv : ∀ kv ∈ kvs, scalarVal kv.2) :
    jsonParse (serJson (.obj kvs)) = some (.obj kvs) := by
  unfold jsonParse
  have hlen : kvs.length + 2 ≤ (serJson (.obj kvs)).length + 1 := by
    have := serMembersFirst_length kvs
    simp only [serJson, List.length_cons]
    omega
  obtain ⟨f, hf⟩ : ∃ f, (serJson (.obj kvs)).length + 1 = f + kvs.length + 2 :=
    ⟨(serJson (.obj kvs)).length + 1 - (kvs.length + 2), by omega⟩
  rw [hf]
  have hobj := parseValue_serObj kvs hkv f []
  rw [List.append_nil] at hobj
  rw [hobj]
  simp [skipWs]

end JsonRoundTrip

section PayloadLemmas

theorem validBytes_append {a b : Bytes} : ValidBytes (a ++ b) ↔ ValidBytes a ∧ ValidBytes b :=
  List.forall_mem_append

theorem validBytes_cons {a : Nat} {l : Bytes} : ValidBytes (a :: l) ↔ a < 256 ∧ ValidBytes l :=
  List.forall_mem_cons

theorem escStr_valid (s : Bytes) : ValidBytes s → ValidBytes (escStr s) := by
  induction s with
  | nil => intro _ b hb; simp [escStr] at hb
  | cons b s' ih =>
    intro h
    have hb : b < 256 := h _ (by simp)
    have ih' := ih (fun x hx => h x (by simp [hx]))
    by_cases h34 : b = 34
    · subst h34
      rw [show escStr (34 :: s') = 92 :: 34 :: escStr s' from rfl, validBytes_cons,
        validBytes_cons]
      exact ⟨by omega, by omega, ih'⟩
    · by_cases h92 : b = 92
      · subst h92
        rw [show escStr (92 :: s') = 92 :: 92 :: escStr s' from rfl, validBytes_cons,
          validBytes_cons]
        exact ⟨by omega, by omega, ih'⟩
      · by_cases hc : b < 32
        · simp only [escStr, if_neg h34, if_neg h92, if_pos hc, validBytes_cons]
          refine ⟨by omega, by omega, by omega, by omega, ?_, ?_, ih'⟩
          · unfold hexDigitByte
            split <;> omega
          · unfold hexDigitByte
            split <;> omega
        · simp only [escStr, if_neg h34, if_neg h92, if_neg hc, validBytes_cons]
          exact ⟨hb, ih'⟩

theorem serStr_valid (s : Bytes) (h : ValidBytes s) : ValidBytes (serStr s) := by
  unfold serStr
  rw [validBytes_cons, validBytes_append]
  exact ⟨by omega, escStr_valid s h, by decide⟩

theorem payload_valid (S T P : Bytes) (D U : Bool)
    (hS : ValidBytes S) (hT : ValidBytes T) (hP : ValidBytes P) :
    ValidBytes (serJson (.obj (payloadMembers S T P D U))) := by
  have hBoolD : ValidBytes (serJson (.bool D)) := by cases D <;> decide
  have hBoolU : ValidBytes (serJson (.bool U)) := by cases U <;> decide
  have hvS : ValidBytes (serStr S) := serStr_valid S hS
  have hvT : ValidBytes (serStr T) := serStr_valid T hT
  have hvP : ValidBytes (serStr P) := serStr_valid P hP
  have hshape : serJson (.obj (payloadMembers S T P D U)) =
      123 :: (serStr subjectClaim ++ 58 :: (serStr S ++ 44 :: (serStr tenantClaim ++
        58 :: (serStr T ++ 44 :: (serStr planClaim ++ 58 :: (serStr P ++
        44 :: (serStr deviceClaim ++ 58 :: (serJson (.bool D) ++
        44 :: (serStr userClaim ++ 58 :: (serJson (.bool U) ++ [125])))))))))) := rfl
  rw [hshape]
  simp only [validBytes_cons, validBytes_append]
  repeat' apply And.intro
  all_goals first
    | omega
    | exact hvS
    | exact hvT
    | exact hvP
    | exact hBoolD
    | exact hBoolU
    | decide

theorem decodeClaims_wrapToken (p : Bytes) (hp : ∀ x ∈ p, x ≠ 46) :
    decodeClaims (wrapToken p) =
      match decodeB64 (padB64 p) with
      | none => .error .decodeError
      | some raw =>
        match jsonToClaims raw with
        | none => .error .parseError
        | some claims => .ok claims := by
  have hsplit : splitOnByte 46 (wrapToken p) = [[120], p, [121]] := by
    have h1 : splitOnByte 46 ([120] ++ 46 :: (p ++ 46 :: [121])) =
        [120] :: splitOnByte 46 (p ++ 46 :: [121]) :=
      splitOnByte_append 46 [120] _ (by decide)
    have h2 : splitOnByte 46 (p ++ 46 :: [121]) = p :: splitOnByte 46 [121] :=
      splitOnByte_append 46 p _ hp
    have h3 : splitOnByte 46 [121] = [[121]] := splitOnByte_no_sep 46 [121] (by decide)
    have hshape : wrapToken p = [120] ++ 46 :: (p ++ 46 :: [121]) := by
      simp [wrapToken]
    rw [hshape, h1, h2, h3]
  unfold decodeClaims
  rw [hsplit]

theorem ExtractIdentity_payload (t S T P : Bytes) (D U : Bool)
    (hdec : decodeClaims t = .ok (payloadMembers S T P D U)) (hS : S ≠ []) :
    ExtractIdentity t =
      ({Subject := S, Tenant := T, IsUser := U, IsDevice := D, Plan := P}, none) := by
  have h1 : getStringClaim (payloadMembers S T P D U) subjectClaim = .ok S := rfl
  have h2 : getStringClaim (payloadMembers S T P D U) tenantClaim = .ok T := rfl
  have h3 : getStringClaim (payloadMembers S T P D U) planClaim = .ok P := rfl
  have h4 : getBoolClaim (payloadMembers S T P D U) userClaim = .ok U := rfl
  have h5 : getBoolClaim (payloadMembers S T P D U) deviceClaim = .ok D := rfl
  unfold ExtractIdentity
  rw [hdec]
  simp only [h1, h2, h3, h4, h5]
  rw [if_neg hS]

end PayloadLemmas

/-- C1: for every payload object with the five recognised claims, subject
non-empty, serialising it to JSON, URL-safe base64-encoding it, with or
without its trailing padding, and wrapping it between the literal segments
x and y, ExtractIdentity succeeds and returns exactly the Identity built
from the five claim values. -/
theorem C1_round_trip (S T P : Bytes) (D U : Bool) (hS : S ≠ [])
    (hSv : ValidBytes S) (hTv : ValidBytes T) (hPv : ValidBytes P) :
    ExtractIdentity (wrapToken (encodeB64 (serJson (.obj (payloadMembers S T P D U))))) =
      ({Subject := S, Tenant := T, IsUser := U, IsDevice := D, Plan := P}, none) ∧
    ExtractIdentity (wrapToken (rstripEq (encodeB64 (serJson (.obj (payloadMembers S T P D U)))))) =
      ({Subject := S, Tenant := T, IsUser := U, IsDevice := D, Plan := P}, none) := by
  have hvalid := payload_valid S T P D U hSv hTv hPv
  have hns : ∀ x ∈ encodeB64 (serJson (.obj (payloadMembers S T P D U))), x ≠ 46 :=
    fun x hx => (encodeB64_not_sep _ hvalid x hx).1
  have hscalar : ∀ kv ∈ payloadMembers S T P D U, scalarVal kv.2 := by
    intro kv hkv
    simp only [payloadMembers, List.mem_cons, List.not_mem_nil, or_false] at hkv
    rcases hkv with rfl | rfl | rfl | rfl | rfl <;> trivial
  have hjson : jsonToClaims (serJson (.obj (payloadMembers S T P D U))) =
      some (payloadMembers S T P D U) := by
    unfold jsonToClaims
    rw [jsonParse_serObj _ hscalar]
  have hdecB : decodeB64 (padB64 (encodeB64 (serJson (.obj (payloadMembers S T P D U))))) =
      some (serJson (.obj (payloadMembers S T P D U))) := by
    rw [padB64_length_mod _ (encodeB64_length_mod _)]
    exact decodeB64_encodeB64 _ hvalid
  have hdc : decodeClaims (wrapToken (encodeB64 (serJson (.obj (payloadMembers S T P D U))))) =
      .ok (payloadMembers S T P D U) := by
    rw [decodeClaims_wrapToken _ hns, hdecB]
    simp only [hjson]
  obtain ⟨core, k, heq, hne, hk, hmod⟩ := encodeB64_pad_struct _ hvalid
  have hstrip_mem :
      ∀ x ∈ rstripEq (encodeB64 (serJson (.obj (payloadMembers S T P D U)))), x ≠ 46 := by
    rw [heq, rstripEq_append_replicate core k hne]
    intro x hx
    exact hns x (by rw [heq]; exact List.mem_append_left _ hx)
  have hdecB' :
      decodeB64 (padB64 (rstripEq (encodeB64 (serJson (.obj (payloadMembers S T P D U)))))) =
        some (serJson (.obj (payloadMembers S T P D U))) := by
    rw [padB64_rstrip_encode _ hvalid]
    exact decodeB64_encodeB64 _ hvalid
  have hdc' :
      decodeClaims (wrapToken (rstripEq (encodeB64 (serJson (.obj (payloadMembers S T P D U)))))) =
        .ok (payloadMembers S T P D U) := by
    rw [decodeClaims_wrapToken _ hstrip_mem, hdecB']
    simp only [hjson]
  exact ⟨ExtractIdentity_payload _ S T P D U hdc hS, ExtractIdentity_payload _ S T P D U hdc' hS⟩

/-- Witness for C1 at a concrete payload. -/
theorem C1_round_trip_witness :
    (([115] : Bytes) ≠ [] ∧ ValidBytes [115] ∧ ValidBytes [116] ∧ ValidBytes [112]) ∧
    (ExtractIdentity (wrapToken (encodeB64 (serJson (.obj (payloadMembers [115] [116] [112] true false))))) =
      ({Subject := [115], Tenant := [116], IsUser := false, IsDevice := true, Plan := [112]}, none) ∧
    ExtractIdentity (wrapToken (rstripEq (encodeB64 (serJson (.obj (payloadMembers [115] [116] [112] true false)))))) =
      ({Subject := [115], Tenant := [116], IsUser := false, IsDevice := true, Plan := [112]}, none)) :=
  ⟨⟨by decide, by decide, by decide, by decide⟩,
    C1_round_trip [115] [116] [112] true false (by decide) (by decide) (by decide) (by decide)⟩

/-- C2: a token whose byte string does not contain exactly two dot
separators fails in decodeClaims, and hence in ExtractIdentity, with the
format error. -/
theorem C2_format_error (t : Bytes) (h : t.count 46 ≠ 2) :
    decodeClaims t = .error .formatError ∧
    ExtractIdentity t = (Identity.zero, some .formatError) := by
  have hlen : (splitOnByte 46 t).length ≠ 3 := by
    rw [splitOnByte_length]
    omega
  have hdc : decodeClaims t = .error .formatError := by
    unfold decodeClaims
    rcases h1 : splitOnByte 46 t with _ | ⟨a, _ | ⟨b, _ | ⟨c, _ | ⟨d, tl⟩⟩⟩⟩
    · rfl
    · rfl
    · rfl
    · exfalso
      exact hlen (by rw [h1]; rfl)
    · rfl
  refine ⟨hdc, ?_⟩
  unfold ExtractIdentity
  rw [hdc]

/-- Witness for C2 at the token foo. -/
theorem C2_format_error_witness :
    (([102, 111, 111] : Bytes).count 46 ≠ 2) ∧
    (decodeClaims [102, 111, 111] = .error .formatError ∧
      ExtractIdentity [102, 111, 111] = (Identity.zero, some .formatError)) :=
  ⟨by decide, C2_format_error [102, 111, 111] (by decide)⟩



theorem extract_error_zero (t : Bytes) (e : ExtractError) :
    (ExtractIdentity t).2 = some e → (ExtractIdentity t).1 = Identity.zero := by
  unfold ExtractIdentity
  split
  · intro _
    rfl
  · split
    · intro _
      rfl
    · split
      · intro _
        rfl
      · split
        · intro _
          rfl
        · split
          · intro _
            rfl
          · intro hc
            simp at hc

/-- C9: whenever ExtractIdentity or ExtractIdentityFromHeaders returns an
error, the Identity returned alongside it is the zero value: no partial
result is produced. -/
theorem C9_atomic_failure :
    (∀ t e, (ExtractIdentity t).2 = some e → (ExtractIdentity t).1 = Identity.zero) ∧
    (∀ hs e, (ExtractIdentityFromHeaders hs).2 = some e →
      (ExtractIdentityFromHeaders hs).1 = Identity.zero) := by
  refine ⟨fun t e => extract_error_zero t e, fun hs e => ?_⟩
  unfold ExtractIdentityFromHeaders
  split
  · split
    · exact extract_error_zero _ e
    · intro _
      rfl
  · intro _
    rfl

/-- Witness for C9 at the token foo and the empty header collection. -/
theorem C9_atomic_failure_witness :
    ((ExtractIdentity [102, 111, 111]).2 = some .formatError ∧
      (ExtractIdentity [102, 111, 111]).1 = Identity.zero) ∧
    ((ExtractIdentityFromHeaders []).2 = some .malformedHeader ∧
      (ExtractIdentityFromHeaders []).1 = Identity.zero) :=
  ⟨⟨by decide, C9_atomic_failure.1 [102, 111, 111] .formatError (by decide)⟩,
    ⟨by decide, C9_atomic_failure.2 [] .malformedHeader (by decide)⟩⟩

/-- C7: an Authorization value that does not split on the space byte into
exactly two parts fails with the malformed-header error; one that splits
into two parts whose first part is not the literal Bearer fails with the
unsupported-scheme error carrying that first part. -/
theorem C7_header_errors :
    (∀ hs, (splitOnByte 32 (headerGet hs authorizationKey)).length ≠ 2 →
      ExtractIdentityFromHeaders hs = (Identity.zero, some .malformedHeader)) ∧
    (∀ hs scheme tok, splitOnByte 32 (headerGet hs authorizationKey) = [scheme, tok] →
      scheme ≠ bearerScheme →
      ExtractIdentityFromHeaders hs = (Identity.zero, some (.unsupportedScheme scheme))) := by
  constructor
  · intro hs h
    unfold ExtractIdentityFromHeaders
    rcases h1 : splitOnByte 32 (headerGet hs authorizationKey) with
      _ | ⟨scheme, _ | ⟨tok, _ | _⟩⟩
    · rfl
    · rfl
    · exfalso
      exact h (by rw [h1]; rfl)
    · rfl
  · intro hs scheme tok h1 h2
    unfold ExtractIdentityFromHeaders
    rw [h1]
    simp only [if_neg h2]

/-- Witness for C7: the empty header collection is malformed, and the Basic
scheme is unsupported. -/
theorem C7_header_errors_witness :
    (ExtractIdentityFromHeaders [] = (Identity.zero, some .malformedHeader)) ∧
    (ExtractIdentityFromHeaders [(authorizationKey, [66, 97, 115, 105, 99, 32, 120])] =
      (Identity.zero, some (.unsupportedScheme [66, 97, 115, 105, 99]))) :=
  ⟨C7_header_errors.1 [] (by decide),
    C7_header_errors.2 [(authorizationKey, [66, 97, 115, 105, 99, 32, 120])]
      [66, 97, 115, 105, 99] [120] (by decide) (by decide)⟩

/-- C8 counterexample: this structurally valid token extracts directly to a
successful Identity, yet through the Bearer header the same token fails with
the malformed-header error, because its space makes the Authorization value
split into three parts. -/
theorem C8_counterexample :
    ExtractIdentity c8Token =
      ({Subject := [120], Tenant := [], IsUser := false, IsDevice := false, Plan := []}, none) ∧
    ExtractIdentityFromHeaders [(authorizationKey, bearerScheme ++ 32 :: c8Token)] =
      (Identity.zero, some .malformedHeader) := by
  constructor
  · decide
  · decide

/-- C8 amended: for every token containing no space byte, extraction through
an Authorization header holding Bearer, a space and the token returns
exactly what direct extraction of the token returns. -/
theorem C8_header_delegation (hs : Headers) (t : Bytes)
    (hget : headerGet hs authorizationKey = bearerScheme ++ 32 :: t)
    (ht : ∀ x ∈ t, x ≠ 32) :
    ExtractIdentityFromHeaders hs = ExtractIdentity t := by
  unfold ExtractIdentityFromHeaders
  rw [hget]
  have hsplit : splitOnByte 32 (bearerScheme ++ 32 :: t) = [bearerScheme, t] := by
    rw [splitOnByte_append 32 bearerScheme t (by decide), splitOnByte_no_sep 32 t ht]
  rw [hsplit]
  simp

/-- Witness for C8 amended at a one-entry header collection and the token
foo. -/
theorem C8_header_delegation_witness :
    (headerGet [(authorizationKey, bearerScheme ++ 32 :: [102, 111, 111])] authorizationKey =
      bearerScheme ++ 32 :: [102, 111, 111]) ∧
    ExtractIdentityFromHeaders [(authorizationKey, bearerScheme ++ 32 :: [102, 111, 111])] =
      ExtractIdentity [102, 111, 111] :=
  ⟨by decide,
    C8_header_delegation [(authorizationKey, bearerScheme ++ 32 :: [102, 111, 111])]
      [102, 111, 111] (by decide) (by decide)⟩

/-- C3 counterexample: the payload null is valid base64 of a valid JSON
document whose top-level value is not an object, yet decodeClaims does not
fail with the parse error: json.Unmarshal of null into a map is a no-op, so
decodeClaims succeeds with an empty claim set. -/
theorem C3_counterexample : decodeClaims nullToken = .ok [] := by rfl

/-- C3 amended: a three-segment token whose padded middle segment decodes as
base64 to bytes that parse neither to a JSON object nor to the JSON literal
null fails with the parse error; when the bytes parse to null, decodeClaims
instead succeeds with the empty claim set. -/
theorem C3_parse_error :
    (∀ t a b c bs, splitOnByte 46 t = [a, b, c] → decodeB64 (padB64 b) = some bs →
      (∀ kvs, jsonParse bs ≠ some (.obj kvs)) → jsonParse bs ≠ some .null →
      decodeClaims t = .error .parseError) ∧
    (∀ t a b c bs, splitOnByte 46 t = [a, b, c] → decodeB64 (padB64 b) = some bs →
      jsonParse bs = some .null → decodeClaims t = .ok []) := by
  constructor
  · intro t a b c bs hsp hdec hobj hnull
    have hclaims : jsonToClaims bs = none := by
      unfold jsonToClaims
      rcases hj : jsonParse bs with _ | v
      · rfl
      · cases v with
        | obj kvs => exact absurd hj (hobj kvs)
        | null => exact absurd hj hnull
        | bool b => rfl
        | num n => rfl
        | str s => rfl
        | arr es => rfl
    unfold decodeClaims
    rw [hsp]
    simp only [hdec, hclaims]
  · intro t a b c bs hsp hdec hnull
    have hclaims : jsonToClaims bs = some [] := by
      unfold jsonToClaims
      rw [hnull]
    unfold decodeClaims
    rw [hsp]
    simp only [hdec, hclaims]

/-- Witness for C3 amended: a payload of the JSON literal true gives the
parse error, and the null payload gives the empty claim set. -/
theorem C3_parse_error_witness :
    decodeClaims (wrapToken (encodeB64 [116, 114, 117, 101])) = .error .parseError ∧
    decodeClaims nullToken = .ok [] :=
  ⟨C3_parse_error.1 (wrapToken (encodeB64 [116, 114, 117, 101]))
      [120] (encodeB64 [116, 114, 117, 101]) [121] [116, 114, 117, 101]
      (by decide) (by decide)
      (fun kvs h => by simp [show jsonParse [116, 114, 117, 101] = some (.bool true) from rfl] at h)
      (by simp [show jsonParse [116, 114, 117, 101] = some (.bool true) from rfl]),
    C3_parse_error.2 nullToken [120] (encodeB64 [110, 117, 108, 108]) [121] [110, 117, 108, 108]
      (by decide) (by decide) (by rfl)⟩

theorem boolClaimDefault_eq (m : rawClaims) (k : Bytes) :
    boolClaimDefault m k =
      match getBoolClaim m k with
      | Except.ok b => b
      | Except.error _ => false := by
  unfold getBoolClaim boolClaimDefault
  rcases claimsLookup m k with _ | v
  · rfl
  · cases v <;> rfl

theorem ExtractIdentity_shape (t : Bytes) (m : rawClaims) (s tn pl : Bytes)
    (hdec : decodeClaims t = .ok m)
    (hsubg : getStringClaim m subjectClaim = .ok s) (hs : s ≠ [])
    (hten : getStringClaim m tenantClaim = .ok tn)
    (hplan : getStringClaim m planClaim = .ok pl) :
    ExtractIdentity t =
      ({Subject := s, Tenant := tn, IsUser := boolClaimDefault m userClaim,
        IsDevice := boolClaimDefault m deviceClaim, Plan := pl}, none) := by
  unfold ExtractIdentity
  rw [hdec]
  simp only [hsubg, hten, hplan]
  rw [if_neg hs]
  rw [boolClaimDefault_eq m userClaim, boolClaimDefault_eq m deviceClaim]
  rcases getBoolClaim m userClaim with eu | bu <;>
    rcases getBoolClaim m deviceClaim with ed | bd <;> rfl

/-- C4: a payload object whose sub claim is absent or the empty string
fails with the missing-subject error, and one whose sub claim is present
with a non-string value fails with the type-mismatch error for sub. -/
theorem C4_subject_errors :
    (∀ t m, decodeClaims t = .ok m →
      (claimsLookup m subjectClaim = none ∨ claimsLookup m subjectClaim = some (.str [])) →
      ExtractIdentity t = (Identity.zero, some .missingSubject)) ∧
    (∀ t m v, decodeClaims t = .ok m → claimsLookup m subjectClaim = some v →
      (∀ s, v ≠ .str s) →
      ExtractIdentity t = (Identity.zero, some (.typeMismatch subjectClaim))) := by
  constructor
  · intro t m hdec hsub
    have hg : getStringClaim m subjectClaim = .ok [] := by
      unfold getStringClaim
      rcases hsub with h | h <;> rw [h]
    unfold ExtractIdentity
    rw [hdec]
    simp only [hg]
    simp
  · intro t m v hdec hsub hv
    have hg : getStringClaim m subjectClaim = .error (.typeMismatch subjectClaim) := by
      unfold getStringClaim
      rw [hsub]
      cases v with
      | str s => exact absurd rfl (hv s)
      | null => rfl
      | bool b => rfl
      | num n => rfl
      | arr es => rfl
      | obj kvs => rfl
    unfold ExtractIdentity
    rw [hdec]
    simp only [hg]

/-- Witness for C4: an empty payload object misses the subject, and a
numeric sub is a type mismatch. -/
theorem C4_subject_errors_witness :
    ExtractIdentity (wrapToken (encodeB64 [123, 125])) =
      (Identity.zero, some .missingSubject) ∧
    ExtractIdentity
        (wrapToken (encodeB64 [123, 34, 115, 117, 98, 34, 58, 49, 50, 51, 125])) =
      (Identity.zero, some (.typeMismatch subjectClaim)) :=
  ⟨C4_subject_errors.1 (wrapToken (encodeB64 [123, 125])) [] (by rfl) (Or.inl (by rfl)),
    C4_subject_errors.2 (wrapToken (encodeB64 [123, 34, 115, 117, 98, 34, 58, 49, 50, 51, 125]))
      [(subjectClaim, .num 123)] (.num 123) (by rfl) (by rfl)
      (fun s h => Json.noConfusion h)⟩

/-- C5: with a valid subject, an absent tenant claim yields the empty
Tenant field with no error, independently of the plan claim, and an absent
plan claim symmetrically yields the empty Plan field with no error; a
present non-string tenant or plan fails with the type-mismatch error
naming the claim. -/
theorem C5_optional_strings :
    (∀ t m s pl, decodeClaims t = .ok m → getStringClaim m subjectClaim = .ok s → s ≠ [] →
      claimsLookup m tenantClaim = none → getStringClaim m planClaim = .ok pl →
      (ExtractIdentity t).2 = none ∧ (ExtractIdentity t).1.Tenant = []) ∧
    (∀ t m s tn, decodeClaims t = .ok m → getStringClaim m subjectClaim = .ok s → s ≠ [] →
      getStringClaim m tenantClaim = .ok tn → claimsLookup m planClaim = none →
      (ExtractIdentity t).2 = none ∧ (ExtractIdentity t).1.Plan = []) ∧
    (∀ t m s v, decodeClaims t = .ok m → getStringClaim m subjectClaim = .ok s → s ≠ [] →
      claimsLookup m tenantClaim = some v → (∀ s', v ≠ .str s') →
      ExtractIdentity t = (Identity.zero, some (.typeMismatch tenantClaim))) ∧
    (∀ t m s tn v, decodeClaims t = .ok m → getStringClaim m subjectClaim = .ok s → s ≠ [] →
      getStringClaim m tenantClaim = .ok tn →
      claimsLookup m planClaim = some v → (∀ s', v ≠ .str s') →
      ExtractIdentity t = (Identity.zero, some (.typeMismatch planClaim))) := by
  refine ⟨?_, ?_, ?_, ?_⟩
  · intro t m s pl hdec hsubg hs hten hplang
    have hteng : getStringClaim m tenantClaim = .ok [] := by
      unfold getStringClaim
      rw [hten]
    rw [ExtractIdentity_shape t m s [] pl hdec hsubg hs hteng hplang]
    exact ⟨rfl, rfl⟩
  · intro t m s tn hdec hsubg hs hteng hplan
    have hplang : getStringClaim m planClaim = .ok [] := by
      unfold getStringClaim
      rw [hplan]
    rw [ExtractIdentity_shape t m s tn [] hdec hsubg hs hteng hplang]
    exact ⟨rfl, rfl⟩
  · intro t m s v hdec hsubg hs hten hv
    have hg : getStringClaim m tenantClaim = .error (.typeMismatch tenantClaim) := by
      unfold getStringClaim
      rw [hten]
      cases v with
      | str s' => exact absurd rfl (hv s')
      | null => rfl
      | bool b => rfl
      | num n => rfl
      | arr es => rfl
      | obj kvs => rfl
    unfold ExtractIdentity
    rw [hdec]
    simp only [hsubg, hg]
    rw [if_neg hs]
  · intro t m s tn v hdec hsubg hs hteng hplan hv
    have hg : getStringClaim m planClaim = .error (.typeMismatch planClaim) := by
      unfold getStringClaim
      rw [hplan]
      cases v with
      | str s' => exact absurd rfl (hv s')
      | null => rfl
      | bool b => rfl
      | num n => rfl
      | arr es => rfl
      | obj kvs => rfl
    unfold ExtractIdentity
    rw [hdec]
    simp only [hsubg, hteng, hg]
    rw [if_neg hs]

/-- Witness for C5: a payload with sub and a string plan but no tenant has
an empty Tenant and no error, a payload with sub and a string tenant but no
plan has an empty Plan and no error, and a numeric tenant is a type
mismatch. -/
theorem C5_optional_strings_witness :
    ((ExtractIdentity (wrapToken (encodeB64
        [123, 34, 115, 117, 98, 34, 58, 34, 120, 34, 44, 34, 109, 101, 110, 100, 101, 114,
         46, 112, 108, 97, 110, 34, 58, 34, 103, 111, 108, 100, 34, 125]))).2 = none ∧
      (ExtractIdentity (wrapToken (encodeB64
        [123, 34, 115, 117, 98, 34, 58, 34, 120, 34, 44, 34, 109, 101, 110, 100, 101, 114,
         46, 112, 108, 97, 110, 34, 58, 34, 103, 111, 108, 100, 34, 125]))).1.Tenant = []) ∧
    ((ExtractIdentity (wrapToken (encodeB64
        [123, 34, 115, 117, 98, 34, 58, 34, 120, 34, 44, 34, 109, 101, 110, 100, 101, 114,
         46, 116, 101, 110, 97, 110, 116, 34, 58, 34, 103, 111, 108, 100, 34, 125]))).2 = none ∧
      (ExtractIdentity (wrapToken (encodeB64
        [123, 34, 115, 117, 98, 34, 58, 34, 120, 34, 44, 34, 109, 101, 110, 100, 101, 114,
         46, 116, 101, 110, 97, 110, 116, 34, 58, 34, 103, 111, 108, 100, 34, 125]))).1.Plan = []) ∧
    ExtractIdentity (wrapToken (encodeB64
        [123, 34, 115, 117, 98, 34, 58, 34, 120, 34, 44, 34, 109, 101, 110, 100, 101, 114,
         46, 116, 101, 110, 97, 110, 116, 34, 58, 49, 125])) =
      (Identity.zero, some (.typeMismatch tenantClaim)) :=
  ⟨C5_optional_strings.1 (wrapToken (encodeB64
        [123, 34, 115, 117, 98, 34, 58, 34, 120, 34, 44, 34, 109, 101, 110, 100, 101, 114,
         46, 112, 108, 97, 110, 34, 58, 34, 103, 111, 108, 100, 34, 125]))
      [(subjectClaim, .str [120]), (planClaim, .str [103, 111, 108, 100])] [120]
      [103, 111, 108, 100] (by rfl) (by rfl) (by decide) (by rfl) (by rfl),
    C5_optional_strings.2.1 (wrapToken (encodeB64
        [123, 34, 115, 117, 98, 34, 58, 34, 120, 34, 44, 34, 109, 101, 110, 100, 101, 114,
         46, 116, 101, 110, 97, 110, 116, 34, 58, 34, 103, 111, 108, 100, 34, 125]))
      [(subjectClaim, .str [120]), (tenantClaim, .str [103, 111, 108, 100])] [120]
      [103, 111, 108, 100] (by rfl) (by rfl) (by decide) (by rfl) (by rfl),
    C5_optional_strings.2.2.1 (wrapToken (encodeB64
        [123, 34, 115, 117, 98, 34, 58, 34, 120, 34, 44, 34, 109, 101, 110, 100, 101, 114,
         46, 116, 101, 110, 97, 110, 116, 34, 58, 49, 125]))
      [(subjectClaim, .str [120]), (tenantClaim, .num 1)] [120] (.num 1)
      (by rfl) (by rfl) (by decide) (by rfl) (fun s' h => Json.noConfusion h)⟩

/-- C6: with a valid non-empty subject and well-typed tenant and plan,
extraction succeeds whatever the user and device claims hold; an absent or
non-boolean user or device claim leaves the corresponding flag false, and a
boolean one sets the flag to its value. -/
theorem C6_optional_bools (t : Bytes) (m : rawClaims) (s tn pl : Bytes)
    (hdec : decodeClaims t = .ok m)
    (hsub : claimsLookup m subjectClaim = some (.str s)) (hs : s ≠ [])
    (hten : getStringClaim m tenantClaim = .ok tn)
    (hplan : getStringClaim m planClaim = .ok pl) :
    (ExtractIdentity t).2 = none ∧
    ((claimsLookup m userClaim = none → (ExtractIdentity t).1.IsUser = false) ∧
     (∀ v, claimsLookup m userClaim = some v → (∀ b, v ≠ .bool b) →
        (ExtractIdentity t).1.IsUser = false) ∧
     (∀ b, claimsLookup m userClaim = some (.bool b) → (ExtractIdentity t).1.IsUser = b)) ∧
    ((claimsLookup m deviceClaim = none → (ExtractIdentity t).1.IsDevice = false) ∧
     (∀ v, claimsLookup m deviceClaim = some v → (∀ b, v ≠ .bool b) →
        (ExtractIdentity t).1.IsDevice = false) ∧
     (∀ b, claimsLookup m deviceClaim = some (.bool b) → (ExtractIdentity t).1.IsDevice = b)) := by
  have hsubg : getStringClaim m subjectClaim = .ok s := by
    unfold getStringClaim
    rw [hsub]
  have hshape := ExtractIdentity_shape t m s tn pl hdec hsubg hs hten hplan
  rw [hshape]
  refine ⟨rfl, ⟨?_, ?_, ?_⟩, ⟨?_, ?_, ?_⟩⟩
  · intro h
    show boolClaimDefault m userClaim = false
    unfold boolClaimDefault
    rw [h]
  · intro v h hvb
    show boolClaimDefault m userClaim = false
    unfold boolClaimDefault
    rw [h]
    cases v with
    | bool b => exact absurd rfl (hvb b)
    | null => rfl
    | num n => rfl
    | str s' => rfl
    | arr es => rfl
    | obj kvs => rfl
  · intro b h
    show boolClaimDefault m userClaim = b
    unfold boolClaimDefault
    rw [h]
  · intro h
    show boolClaimDefault m deviceClaim = false
    unfold boolClaimDefault
    rw [h]
  · intro v h hvb
    show boolClaimDefault m deviceClaim = false
    unfold boolClaimDefault
    rw [h]
    cases v with
    | bool b => exact absurd rfl (hvb b)
    | null => rfl
    | num n => rfl
    | str s' => rfl
    | arr es => rfl
    | obj kvs => rfl
  · intro b h
    show boolClaimDefault m deviceClaim = b
    unfold boolClaimDefault
    rw [h]

/-- Witness for C6: the payload with sub 123 and an object-valued
mender.user claim extracts successfully with the user flag false. -/
theorem C6_optional_bools_witness :
    ((ExtractIdentity (wrapToken (encodeB64
        [123, 34, 115, 117, 98, 34, 58, 34, 120, 34, 44, 34, 109, 101, 110, 100, 101, 114,
         46, 117, 115, 101, 114, 34, 58, 123, 34, 103, 34, 58, 50, 125, 125]))).2 = none) ∧
    ((ExtractIdentity (wrapToken (encodeB64
        [123, 34, 115, 117, 98, 34, 58, 34, 120, 34, 44, 34, 109, 101, 110, 100, 101, 114,
         46, 117, 115, 101, 114, 34, 58, 123, 34, 103, 34, 58, 50, 125, 125]))).1.IsUser = false) :=
  have hm := C6_optional_bools
    (wrapToken (encodeB64
      [123, 34, 115, 117, 98, 34, 58, 34, 120, 34, 44, 34, 109, 101, 110, 100, 101, 114,
       46, 117, 115, 101, 114, 34, 58, 123, 34, 103, 34, 58, 50, 125, 125]))
    [(subjectClaim, .str [120]), (userClaim, .obj [([103], .num 2)])]
    [120] [] [] (by rfl) (by rfl) (by decide) (by rfl) (by rfl)
  ⟨hm.1, hm.2.1.2.1 (.obj [([103], .num 2)]) (by rfl) (fun b h => Json.noConfusion h)⟩

/-- C10: a sub claim holding JSON null is a type mismatch, not a missing
subject; and with an otherwise valid payload a null mender.user or
mender.device claim leaves the corresponding flag false while extraction
succeeds. -/
theorem C10_null_claims :
    (∀ t m, decodeClaims t = .ok m → claimsLookup m subjectClaim = some .null →
      ExtractIdentity t = (Identity.zero, some (.typeMismatch subjectClaim))) ∧
    (∀ t m s tn pl, decodeClaims t = .ok m →
      claimsLookup m subjectClaim = some (.str s) → s ≠ [] →
      getStringClaim m tenantClaim = .ok tn → getStringClaim m planClaim = .ok pl →
      (ExtractIdentity t).2 = none ∧
      (claimsLookup m userClaim = some .null → (ExtractIdentity t).1.IsUser = false) ∧
      (claimsLookup m deviceClaim = some .null → (ExtractIdentity t).1.IsDevice = false)) := by
  constructor
  · intro t m hdec hsub
    have hg : getStringClaim m subjectClaim = .error (.typeMismatch subjectClaim) := by
      unfold getStringClaim
      rw [hsub]
    unfold ExtractIdentity
    rw [hdec]
    simp only [hg]
  · intro t m s tn pl hdec hsub hs hten hplan
    have hsubg : getStringClaim m subjectClaim = .ok s := by
      unfold getStringClaim
      rw [hsub]
    have hshape := ExtractIdentity_shape t m s tn pl hdec hsubg hs hten hplan
    rw [hshape]
    refine ⟨rfl, ?_, ?_⟩
    · intro h
      show boolClaimDefault m userClaim = false
      unfold boolClaimDefault
      rw [h]
    · intro h
      show boolClaimDefault m deviceClaim = false
      unfold boolClaimDefault
      rw [h]

/-- Witness for C10: the payload with sub null is a type mismatch. -/
theorem C10_null_claims_witness :
    ExtractIdentity (wrapToken (encodeB64
        [123, 34, 115, 117, 98, 34, 58, 110, 117, 108, 108, 125])) =
      (Identity.zero, some (.typeMismatch subjectClaim)) :=
  C10_null_claims.1
    (wrapToken (encodeB64 [123, 34, 115, 117, 98, 34, 58, 110, 117, 108, 108, 125]))
    [(subjectClaim, .null)] (by rfl) (by rfl)
